import Mathlib

/-!
Verification of the response-normalization core of the lux-mcp hotel-search
frontend (`frontend/src/api/normalize.js`, second variant, the one whose
line numbers the specification cites, together with the numeric price parser
of `frontend/src/components/HotelCard.jsx`).

The JavaScript is shallowly embedded: JSON-compatible values (plus
`undefined` and `NaN`, which arise at runtime) are the inductive type
`JVal`; JS numbers are modelled exactly as rationals (plus NaN and the two
infinities) — binary-float rounding is abstracted away, which is sound for
every property proved here since none depends on rounding; property access
on `null`/`undefined` throws, so every function that can reach such an
access runs in `Except String`.  Built-in conversions (`Number`, `String`,
`parseFloat`, the two regexes of `slug` and `parsePrice`) are modelled by
executable Lean functions following the ECMAScript semantics on the value
shapes the code can produce; `String(q)` for a non-integral rational is a
deterministic decimal printing (exact for terminating decimals of at most
twenty digits).
-/

namespace Lux

/-- JS numbers: NaN, the infinities, or a finite value (modelled as an exact
rational). -/
inductive JNum where
  | nan
  | inf
  | ninf
  | fin (q : ℚ)
deriving DecidableEq, Repr

/-- JSON-compatible JS values, plus `undefined` (distinct from `null`). -/
inductive JVal where
  | null
  | undef
  | bool (b : Bool)
  | num (n : JNum)
  | str (s : String)
  | arr (elems : List JVal)
  | obj (fields : List (String × JVal))

/-- JS truthiness (`Boolean(v)`): `null`, `undefined`, `false`, `NaN`, `0`
and `""` are falsy, everything else (including `[]` and `{}`) is truthy. -/
def truthy : JVal → Bool
  | .null => false
  | .undef => false
  | .bool b => b
  | .num .nan => false
  | .num (.fin q) => decide (q ≠ 0)
  | .num _ => true
  | .str s => !s.isEmpty
  | .arr _ => true
  | .obj _ => true

/-- First binding of a key in a JS object literal (later duplicate keys are
not produced by the embedded code). Missing keys read as `undefined`. -/
def lookupField (fs : List (String × JVal)) (k : String) : JVal :=
  match fs.find? (fun p => p.1 == k) with
  | some p => p.2
  | none => JVal.undef

/-- Total property read used where the receiver is known non-nullish:
objects look keys up, primitives and arrays box to objects without the
accessed named properties, so the read yields `undefined`. -/
def getD : JVal → String → JVal
  | .obj fs, k => lookupField fs k
  | _, _ => JVal.undef

/-- Plain property access `v.k`: throws on `null`/`undefined` receivers. -/
def getF : JVal → String → Except String JVal
  | .null, _ => .error "TypeError: cannot read properties of null"
  | .undef, _ => .error "TypeError: cannot read properties of undefined"
  | v, k => .ok (getD v k)

/-- Optional-chaining access `v?.k`: `undefined` on nullish receivers. -/
def og : JVal → String → JVal
  | .null, _ => .undef
  | .undef, _ => .undef
  | v, k => getD v k

/-- Optional-chaining index access `v?.[i]` for a literal numeric index. -/
def ogIx : JVal → Nat → JVal
  | .arr xs, i => (xs.get? i).getD .undef
  | .str s, i => ((s.data.get? i).map (fun c => JVal.str c.toString)).getD .undef
  | .obj fs, i => lookupField fs (toString i)
  | _, _ => JVal.undef

/-- JS `a || b` (value-returning disjunction). -/
def jor (a b : JVal) : JVal := if truthy a then a else b

/-- JS `a && b` (value-returning conjunction). -/
def jand (a b : JVal) : JVal := if truthy a then b else a

/-- JS `a ?? b` (nullish coalescing). -/
def nullish (a b : JVal) : JVal :=
  match a with
  | .null => b
  | .undef => b
  | v => v

/-! ### String conversion (`String(v)`, template literals, `Array.join`) -/

/-- Decimal digits of the fractional part of a rational in `[0,1)`, with
fuel; exact when the expansion terminates within the fuel. -/
def fracDigits : ℚ → Nat → String
  | _, 0 => ""
  | q, fuel + 1 =>
    if q = 0 then ""
    else
      let q10 := q * 10
      let d : ℤ := ⌊q10⌋
      (Nat.digitChar d.toNat).toString ++ fracDigits (q10 - (d : ℚ)) fuel

/-- `String(n)` for a JS number (deterministic; exact for integers and
terminating decimals up to twenty fractional digits). -/
def numToString : JNum → String
  | .nan => "NaN"
  | .inf => "Infinity"
  | .ninf => "-Infinity"
  | .fin q =>
    let sgn := if q < 0 then "-" else ""
    let a := |q|
    let ip := (⌊a⌋).toNat
    let fs := fracDigits (a - (⌊a⌋ : ℚ)) 20
    sgn ++ toString ip ++ (if fs.isEmpty then "" else "." ++ fs)

mutual

/-- `String(v)` / ToString: arrays join their elements with commas,
`null`/`undefined` elements becoming empty (as in `Array.prototype.join`),
plain objects print as `[object Object]`. -/
def jToString : JVal → String
  | .null => "null"
  | .undef => "undefined"
  | .bool b => if b then "true" else "false"
  | .num n => numToString n
  | .str s => s
  | .arr xs => String.intercalate "," (joinStrings xs)
  | .obj _ => "[object Object]"

/-- Element strings for `Array.prototype.join`: `null` and `undefined`
convert to the empty string. -/
def joinStrings : List JVal → List String
  | [] => []
  | v :: vs =>
    (match v with
     | .null => ""
     | .undef => ""
     | v => jToString v) :: joinStrings vs

end

/-! ### Numeric conversion (`Number(v)`, ECMAScript ToNumber) -/

/-- JS whitespace recognised by `Number`/`trim` (ASCII subset). -/
def isWs (c : Char) : Bool :=
  c == ' ' || c == '\t' || c == '\n' || c == '\r' || c == '\x0b' || c == '\x0c'

/-- Numeric value of a run of decimal digits. -/
def digitsToNat (ds : List Char) : Nat :=
  ds.foldl (fun a c => a * 10 + (c.toNat - 48)) 0

/-- Hex digit value (used for the non-decimal integer literals of
ToNumber). -/
def charHexVal (c : Char) : Option Nat :=
  if c.isDigit then some (c.toNat - 48)
  else if 'a' ≤ c ∧ c ≤ 'f' then some (c.toNat - 87)
  else if 'A' ≤ c ∧ c ≤ 'F' then some (c.toNat - 55)
  else none

/-- Parse a complete base-`b` digit run (nonempty, fully consumed). -/
def parseRadix (b : Nat) (ds : List Char) : Option Nat :=
  if ds.isEmpty then none
  else
    ds.foldlM
      (fun acc c =>
        match charHexVal c with
        | some v => if v < b then some (acc * b + v) else none
        | none => none)
      0

/-- Exponent part after `e`/`E`: optional sign then a nonempty digit run,
fully consumed. -/
def parseExp : List Char → Option Int
  | [] => none
  | '+' :: r => if !r.isEmpty && r.all Char.isDigit then some (digitsToNat r) else none
  | '-' :: r => if !r.isEmpty && r.all Char.isDigit then some (-(digitsToNat r : Int)) else none
  | r => if r.all Char.isDigit then some (digitsToNat r) else none

/-- Unsigned decimal literal of ToNumber: `digits [. digits] [exp]` or
`. digits [exp]`, fully consumed. -/
def parseUDec (cs : List Char) : Option ℚ :=
  let ip := cs.takeWhile Char.isDigit
  let r1 := cs.dropWhile Char.isDigit
  match r1 with
  | '.' :: r2 =>
    let fp := r2.takeWhile Char.isDigit
    let r3 := r2.dropWhile Char.isDigit
    if ip.isEmpty && fp.isEmpty then none
    else
      let mant : ℚ := (digitsToNat ip : ℚ) + (digitsToNat fp : ℚ) / (10 : ℚ) ^ fp.length
      match r3 with
      | [] => some mant
      | e :: r4 =>
        if e == 'e' || e == 'E' then (parseExp r4).map (fun ex => mant * (10 : ℚ) ^ ex)
        else none
  | e :: r4 =>
    if ip.isEmpty then none
    else if e == 'e' || e == 'E' then
      (parseExp r4).map (fun ex => (digitsToNat ip : ℚ) * (10 : ℚ) ^ ex)
    else none
  | [] => if ip.isEmpty then none else some (digitsToNat ip)

/-- Trim JS whitespace from both ends of a character list. -/
def trimWs (cs : List Char) : List Char :=
  ((cs.dropWhile isWs).reverse.dropWhile isWs).reverse

/-- Signed decimal-or-Infinity body of a string numeric literal. -/
def parseSignedDec (cs : List Char) : JNum :=
  let (neg, body) :=
    match cs with
    | '+' :: r => (false, r)
    | '-' :: r => (true, r)
    | r => (false, r)
  if body == "Infinity".data then (if neg then .ninf else .inf)
  else
    match parseUDec body with
    | some q => .fin (if neg then -q else q)
    | none => .nan

/-- `Number(s)` on strings (ECMAScript StringNumericLiteral): whitespace
trimmed, empty means `0`, unsigned hex/octal/binary literals, otherwise a
signed decimal or `Infinity`; anything else is `NaN`. -/
def strToNumber (s : String) : JNum :=
  match trimWs s.data with
  | [] => .fin 0
  | '0' :: x :: r =>
    if x == 'x' || x == 'X' then
      match parseRadix 16 r with | some n => .fin n | none => .nan
    else if x == 'o' || x == 'O' then
      match parseRadix 8 r with | some n => .fin n | none => .nan
    else if x == 'b' || x == 'B' then
      match parseRadix 2 r with | some n => .fin n | none => .nan
    else parseSignedDec ('0' :: x :: r)
  | cs => parseSignedDec cs

/-- ECMAScript ToNumber on the values the embedded code can meet: `null` is
`0`, `undefined` is `NaN`, booleans are `0`/`1`, strings parse as numeric
literals, arrays convert through their join string, plain objects are
`NaN`. -/
def toNumber : JVal → JNum
  | .null => .fin 0
  | .undef => .nan
  | .bool b => .fin (if b then 1 else 0)
  | .num n => n
  | .str s => strToNumber s
  | .arr xs => strToNumber (jToString (.arr xs))
  | .obj _ => .nan

/-! ### `normalize.js` helpers (second variant, lines 182-413) -/

/-- JS default parameter `x = {}`: it replaces only `undefined` (not
`null`). -/
def defObj : JVal → JVal
  | .undef => .obj []
  | v => v

/-- `num` (normalize.js:371): `v == null` (loose, so also `undefined`) gives
`null`; otherwise `Number(v)`, kept only when finite. -/
def num : JVal → JVal
  | .null => .null
  | .undef => .null
  | v =>
    match toNumber v with
    | .fin q => .num (.fin q)
    | _ => .null

/-- Alphanumeric characters kept by `slug`'s `[^a-z0-9]` class (checked
after lowercasing). -/
def isSlugKeep (c : Char) : Bool :=
  ('a' ≤ c && c ≤ 'z') || c.isDigit

/-- One pass of `replace(/[^a-z0-9]+/g, "-")`: each maximal run of
non-kept characters becomes a single dash. `inRun` records whether the
previous character was part of such a run. -/
def collapseGo : List Char → Bool → List Char
  | [], _ => []
  | c :: cs, inRun =>
    if isSlugKeep c then c :: collapseGo cs false
    else if inRun then collapseGo cs true
    else '-' :: collapseGo cs true

/-- `replace(/^-+|-+$/g, "")`: strip leading and trailing dashes. -/
def trimDashes (l : List Char) : List Char :=
  ((l.dropWhile (fun c => c == '-')).reverse.dropWhile (fun c => c == '-')).reverse

/-- `slug` (normalize.js:377): lowercase, collapse non-alphanumeric runs to
single dashes, trim dashes, truncate to 60 characters. -/
def slug (s : String) : String :=
  String.mk ((trimDashes (collapseGo (s.data.map Char.toLower) false)).take 60)

/-- `joinParts` (normalize.js:385): join the truthy parts with `", "`, and
degrade an empty join to `null` (`|| null`). -/
def joinParts (xs : List JVal) : JVal :=
  jor (.str (String.intercalate ", " ((xs.filter truthy).map jToString))) .null

/-- `looksLikeHotel` (normalize.js:210). Accesses are total (`getD`): every
call site guards the argument to be truthy, hence non-nullish. -/
def looksLikeHotel (x0 : JVal) : Bool :=
  let x := defObj x0
  truthy (jor (getD x "name") (jor (getD x "hotelName") (jor (getD x "propertyName")
    (jor (getD x "hotel") (getD x "property")))))

/-- `looksLikeOffer` (normalize.js:220). -/
def looksLikeOffer (x0 : JVal) : Bool :=
  let x := defObj x0
  truthy (jor (getD x "price") (jor (getD x "total") (jor (getD x "amount")
    (jor (getD x "rate") (jor (getD x "nightlyPrice") (jor (getD x "pricing")
      (jor (getD x "offer") (getD x "room"))))))))

/-- `hasHotelSearchFields` (normalize.js:367); called only with the
non-nullish argument of `normalizeItem`. -/
def hasHotelSearchFields (x0 : JVal) : Bool :=
  let x := defObj x0
  truthy (jor (getD x "check_in") (jor (getD x "checkIn") (jor (getD x "check_in_date")
    (jor (getD x "dateRange") (jor (getD x "room") (getD x "rate"))))))

/-- `coerceItem` (normalize.js:233): unwrap one `data`/`result`/`hotel`/
`offer` container level. The very first property read throws when the
element is `null` (the `x = {}` default only replaces `undefined`). -/
def coerceItem (x0 : JVal) : Except String JVal := do
  let x := defObj x0
  let d ← getF x "data"
  if truthy d && (looksLikeHotel d || looksLikeOffer d) then
    pure d
  else
    let r ← getF x "result"
    if truthy r && (looksLikeHotel r || looksLikeOffer r) then
      pure r
    else
      let h ← getF x "hotel"
      if truthy h then pure h
      else
        let o ← getF x "offer"
        if truthy o then pure o else pure x

/-- Loop body of `flattenSteps` (normalize.js:196) for one step: skip falsy
steps, read the step result from `result`/`output`/`data`, and concatenate
whichever of its `offers`/`items`/`results`/`hotels`/`data` members are
arrays. -/
def flattenStepsOne (s : JVal) : List JVal :=
  if !truthy s then []
  else
    let r := jor (getD s "result") (jor (getD s "output") (jor (getD s "data") .null))
    [og r "offers", og r "items", og r "results", og r "hotels", og r "data"].foldl
      (fun acc p => match p with | .arr xs => acc ++ xs | _ => acc) []

/-- `flattenSteps` (normalize.js:196): `for (const s of steps || [])` — a
falsy `steps` iterates nothing, arrays iterate their elements, strings
iterate their characters, and any other truthy value is not iterable and
throws. Returns `undefined` when nothing was collected. -/
def flattenSteps (steps : JVal) : Except String JVal :=
  match (if truthy steps then steps else .arr []) with
  | .arr xs =>
    let out := (xs.map flattenStepsOne).flatten
    .ok (if out.length ≠ 0 then .arr out else .undef)
  | .str s =>
    let out := ((s.data.map (fun c => JVal.str c.toString)).map flattenStepsOne).flatten
    .ok (if out.length ≠ 0 then .arr out else .undef)
  | _ => .error "TypeError: steps is not iterable"

/-- `flattenArray` (normalize.js:188): concatenate the members of
`candidates` that are arrays. -/
def flattenArray (arrays : List JVal) : List JVal :=
  arrays.foldl (fun acc a => match a with | .arr xs => acc ++ xs | _ => acc) []

/-- The canonical item built by `normalizeItem` (normalize.js:350). -/
structure ItemR where
  id : JVal
  name : JVal
  price : JVal
  currency : JVal
  address : JVal
  city : JVal
  lat : JVal
  lng : JVal
  stars : JVal
  rating : JVal
  thumbnail : JVal
  source : JVal
  raw : JVal

/-- The JS object the canonical item is, field order as in the source. -/
def ItemR.toJVal (it : ItemR) : JVal :=
  .obj [("id", it.id), ("name", it.name), ("price", it.price), ("currency", it.currency),
        ("address", it.address), ("city", it.city), ("lat", it.lat), ("lng", it.lng),
        ("stars", it.stars), ("rating", it.rating), ("thumbnail", it.thumbnail),
        ("source", it.source), ("raw", it.raw)]

/-- `normalizeItem` (normalize.js:242): ordered-candidate resolution of each
canonical field; returns `none` (JS `null`) when neither name nor id is
truthy. Receivers of plain accesses can only be nullish when the argument
itself is `null` (then, as in JS, the first read throws). -/
def normalizeItem (x0 : JVal) : Except String (Option ItemR) := do
  let x := defObj x0
  -- Name / property
  let xname ← getF x "name"
  let xhotelName ← getF x "hotelName"
  let xpropertyName ← getF x "propertyName"
  let xtitle ← getF x "title"
  let xproperty ← getF x "property"
  let xhotel ← getF x "hotel"
  let name := jor xname (jor xhotelName (jor xpropertyName (jor xtitle
    (jor (og xproperty "name") (jor (og xhotel "name") .null)))))
  -- ID
  let xid ← getF x "id"
  let xhotelId ← getF x "hotelId"
  let xpropertyId ← getF x "propertyId"
  let xofferId ← getF x "offerId"
  let xreference ← getF x "reference"
  let xcheckIn ← getF x "checkIn"
  let xcheck_in ← getF x "check_in"
  let xcheckOut ← getF x "checkOut"
  let xcheck_out ← getF x "check_out"
  let idSynth : JVal :=
    if truthy name then
      .str (slug (jToString name ++ "-" ++ jToString (jor xcheckIn (jor xcheck_in (.str "")))
        ++ "-" ++ jToString (jor xcheckOut (jor xcheck_out (.str "")))))
    else .null
  let id := jor xid (jor xhotelId (jor xpropertyId (jor xofferId (jor xreference idSynth))))
  -- Price & currency
  let xprice ← getF x "price"
  let xtotal ← getF x "total"
  let xamount ← getF x "amount"
  let xrate ← getF x "rate"
  let xnightlyPrice ← getF x "nightlyPrice"
  let xpricing ← getF x "pricing"
  let price := nullish (num (og xprice "total")) (nullish (num (og xprice "amount"))
    (nullish (num xprice) (nullish (num xtotal) (nullish (num xamount)
      (nullish (num (og xrate "amount")) (nullish (num xnightlyPrice)
        (nullish (num (og xpricing "total")) .null)))))))
  let xcurrency ← getF x "currency"
  let currency := jor (og xprice "currency") (jor xcurrency
    (jor (og xrate "currency") (jor (og xpricing "currency") .null)))
  -- Address / city
  let xaddress ← getF x "address"
  let xlocation ← getF x "location"
  let address := jor (joinParts
      [jor (og xaddress "line1") (jor (og xaddress "address1") (og xaddress "street")),
       jor (og xaddress "line2") (og xaddress "address2"),
       jor (og xaddress "postalCode") (og xaddress "zip")])
    (jor (og xaddress "freeform") (jor (og xaddress "full")
      (jor (og xlocation "address") .null)))
  let xcity ← getF x "city"
  let city := jor (og xaddress "city") (jor xcity (jor (og xlocation "city")
    (jor (og (og xproperty "address") "city") .null)))
  -- Geo
  let xcoordinates ← getF x "coordinates"
  let lat := nullish (num (og xlocation "lat")) (nullish (num (og xlocation "latitude"))
    (nullish (num (og xcoordinates "lat")) (nullish (num (og xcoordinates "latitude")) .null)))
  let lng := nullish (num (og xlocation "lng")) (nullish (num (og xlocation "lon"))
    (nullish (num (og xlocation "longitude")) (nullish (num (og xcoordinates "lng"))
      (nullish (num (og xcoordinates "lon")) (nullish (num (og xcoordinates "longitude")) .null)))))
  -- Quality signals
  let xstars ← getF x "stars"
  let xrating ← getF x "rating"
  let xclass ← getF x "class"
  let xstarRating ← getF x "starRating"
  let stars := nullish (num xstars) (nullish (num (og xrating "stars"))
    (nullish (num xclass) (nullish (num xstarRating) .null)))
  let xreviewScore ← getF x "reviewScore"
  let xscore ← getF x "score"
  let xguestRating ← getF x "guestRating"
  let rating := nullish (num (og xrating "value")) (nullish (num xreviewScore)
    (nullish (num xscore) (nullish (num xguestRating) .null)))
  -- Media
  let xthumbnail ← getF x "thumbnail"
  let ximage ← getF x "image"
  let ximages ← getF x "images"
  let xphotos ← getF x "photos"
  let xmedia ← getF x "media"
  let thumbnail := jor xthumbnail (jor ximage (jor (ogIx ximages 0)
    (jor (og (ogIx xphotos 0) "url") (jor (og (ogIx xmedia 0) "url") .null))))
  -- Source (best guess)
  let xsource1 ← getF x "_source"
  let xsource2 ← getF x "source"
  let source := jor xsource1 (jor xsource2
    (if hasHotelSearchFields x then .str "hotel_search" else .str "plan"))
  -- If we didn't get a name or id, consider it unusable
  if !truthy name && !truthy id then pure none
  else
    pure (some { id := id, name := name, price := price, currency := currency,
                 address := address, city := city, lat := lat, lng := lng,
                 stars := stars, rating := rating, thumbnail := thumbnail,
                 source := source, raw := x })

/-- `extractMeta` (normalize.js:393). Total: called only on the truthy
top-level input (a nullish argument would throw in JS, never reached). -/
def extractMeta (input0 : JVal) : JVal :=
  let input := defObj input0
  let narrative := jor (getD input "narrative") (jor (getD input "summary")
    (jor (getD input "text") (jor (getD input "message")
      (jor (match getD input "notes" with
            | .arr xs => .str (String.intercalate " • " (joinStrings xs))
            | _ => .str "")
        (.str "")))))
  let agent := jor (getD input "agent") (jor (getD input "tool")
    (jor (getD input "type") (jor (getD input "workflow") .null)))
  .obj [("narrative", narrative), ("agent", agent)]

/-- The canonical response object of `normalizeSearchResponse` (items,
meta, the `hotels` alias of items, and the `narrative` compatibility
field). -/
structure NormResp where
  items : List ItemR
  meta : JVal
  hotels : List ItemR
  narrative : JVal

/-- `empty` (normalize.js:184): the canonical empty response. -/
def empty : NormResp :=
  { items := [], meta := .obj [], hotels := [], narrative := .str "" }

/-- `normalizeSearchResponse` (normalize.js:143): falsy input yields the
canonical empty response; otherwise gather candidate arrays from the fixed
key list (plus flattened `steps`), flatten them, fall back to the input
itself when it looks like a single hotel/offer, coerce and normalize each
candidate, drop the unusable ones, and assemble items with metadata. -/
def normalizeSearchResponse (input : JVal) : Except String NormResp :=
  if !truthy input then .ok empty
  else do
    let c1 ← getF input "items"
    let c2 ← getF input "results"
    let c3 ← getF input "offers"
    let c4 ← getF input "hotels"
    let c5 ← getF input "data"
    let c6 ← getF input "payload"
    let steps ← getF input "steps"
    let c7 ← if truthy steps then flattenSteps steps else pure steps
    let candidates := [c1, c2, c3, c4, c5, c6, c7].filter truthy
    let flat := flattenArray candidates
    let sourceItems :=
      if flat.length ≠ 0 then flat
      else if looksLikeHotel input || looksLikeOffer input then [input] else []
    let coerced ← sourceItems.mapM coerceItem
    let normed ← coerced.mapM normalizeItem
    let items := normed.filterMap id
    let meta := extractMeta input
    pure { items := items, meta := meta, hotels := items,
           narrative := nullish (og meta "narrative") (.str "") }

/-! ### `parsePrice` (HotelCard.jsx:55) -/

/-- Greedy match of `\d+(?:[.,]\d+)?` at a position known to start with a
digit. -/
def matchNumAt (l : List Char) : List Char :=
  let ds := l.takeWhile Char.isDigit
  let rest := l.dropWhile Char.isDigit
  match rest with
  | s :: r2 =>
    if s == '.' || s == ',' then
      let fs := r2.takeWhile Char.isDigit
      if !fs.isEmpty then ds ++ s :: fs else ds
    else ds
  | [] => ds

/-- Leftmost match of the regex `-?\d+(?:[.,]\d+)?`: at each position a
digit matches, and a `-` matches only when immediately followed by a
digit. -/
def firstNumToken : List Char → Option (List Char)
  | [] => none
  | c :: cs =>
    if c.isDigit then some (matchNumAt (c :: cs))
    else if c == '-' then
      match cs with
      | d :: _ => if d.isDigit then some ('-' :: matchNumAt cs) else firstNumToken cs
      | [] => none
    else firstNumToken cs

/-- `parseFloat(tok.replace(",", "."))` for a matched token: sign, integer
digits, optional fractional digits (the decimal separator may be a comma,
replaced before parsing). Always finite. -/
def tokenToRat (tok : List Char) : ℚ :=
  let (neg, t) := match tok with | '-' :: r => (true, r) | r => (false, r)
  let ip := t.takeWhile Char.isDigit
  let rest := t.dropWhile Char.isDigit
  let fp := match rest with | _ :: r => r.takeWhile Char.isDigit | [] => []
  let q : ℚ := (digitsToNat ip : ℚ) + (digitsToNat fp : ℚ) / (10 : ℚ) ^ fp.length
  if neg then -q else q

/-- JS `String.prototype.trim` (ASCII whitespace model). -/
def jsTrim (s : String) : String := String.mk (trimWs s.data)

/-- Lines 61-64 of `parsePrice`: `const m = s.match(...)`, null when no
match, else `parseFloat(m[0].replace(",", "."))` — which is always finite
for a matched token, so the finiteness guard always passes. -/
def matchAndParse (s : String) : JVal :=
  match firstNumToken s.data with
  | none => .null
  | some tok => .num (.fin (tokenToRat tok))

/-- `parsePrice` (HotelCard.jsx:55): nullish gives `null`; otherwise
stringify and trim, strip one layer of wrapping single or double quotes
(trimming again), scan for the first `-?\d+(?:[.,]\d+)?` token, and parse
it with the comma read as a decimal point; no token gives `null`. The
matched token always parses to a finite number. -/
def parsePrice (v : JVal) : JVal :=
  match v with
  | .null => .null
  | .undef => .null
  | v =>
    let s0 := jsTrim (jToString v)
    let s :=
      if (s0.startsWith "\"" && s0.endsWith "\"") || (s0.startsWith "'" && s0.endsWith "'") then
        jsTrim (String.mk (s0.data.drop 1).dropLast)
      else s0
    matchAndParse s

/-! ### Auxiliary predicates used in the statements -/

/-- Truthy-capable non-object primitives (booleans, numbers, strings);
`null`/`undefined` are always falsy and fall under the falsy case. -/
def isPrimitive : JVal → Bool
  | .bool _ => true
  | .num _ => true
  | .str _ => true
  | _ => false

/-- Every character of `String(v)` lowercases to something outside
`[a-z0-9]`, so any slug built from `String(v)` and dashes is empty. -/
def slugSrcEmpty (v : JVal) : Prop :=
  ∀ c ∈ (jToString v).data, isSlugKeep (Char.toLower c) = false

/-- Shape invariant of every item `normalizeItem` emits: the resolved name
is truthy or `null`; the resolved id is truthy, or the item was kept
through a truthy name whose synthesized slug collapsed to the empty
string. -/
def ItemInv (it : ItemR) : Prop :=
  (truthy it.name = true ∨ it.name = .null) ∧
  (truthy it.id = true ∨
    (truthy it.name = true ∧ it.id = .str "" ∧ slugSrcEmpty it.name))

/-! ## Helper lemmas -/

theorem ebind_ok {α β : Type} (a : α) (f : α → Except String β) :
    (Except.ok a >>= f) = f a := rfl

theorem ebind_error {α β : Type} (e : String) (f : α → Except String β) :
    ((Except.error e : Except String α) >>= f) = .error e := rfl

theorem epure_eq {α : Type} (a : α) : (pure a : Except String α) = Except.ok a := rfl

@[simp] theorem jor_undef (b : JVal) : jor .undef b = b := rfl

@[simp] theorem jor_null (b : JVal) : jor .null b = b := rfl

theorem jor_pos {a : JVal} (b : JVal) (h : truthy a = true) : jor a b = a := by
  simp [jor, h]

theorem jor_neg {a : JVal} (b : JVal) (h : truthy a = false) : jor a b = b := by
  simp [jor, h]

theorem jor_truthy_or_eq (a b : JVal) : truthy (jor a b) = true ∨ jor a b = b := by
  cases h : truthy a <;> simp [jor, h]

/-- Push `truthy … ∨ = null` through one `||` link. -/
theorem jor_truthy_or_null {a b : JVal} (hb : truthy b = true ∨ b = .null) :
    truthy (jor a b) = true ∨ jor a b = .null := by
  rcases jor_truthy_or_eq a b with h | h
  · exact Or.inl h
  · rw [h]; exact hb

/-- Push `truthy … ∨ = t` through one `||` link. -/
theorem jor_truthy_or_last {a b t : JVal} (hb : truthy b = true ∨ b = t) :
    truthy (jor a b) = true ∨ jor a b = t := by
  rcases jor_truthy_or_eq a b with h | h
  · exact Or.inl h
  · rw [h]; exact hb

theorem getF_of_truthy {v : JVal} (h : truthy v = true) (k : String) :
    getF v k = .ok (getD v k) := by
  cases v <;> simp_all [truthy, getF]

theorem truthy_str (s : String) : truthy (.str s) = !s.isEmpty := rfl

/-- `mapM` over `Except` succeeds elementwise. -/
theorem mapM_ok_mem {α β : Type} {f : α → Except String β} :
    ∀ {l : List α} {l2 : List β}, l.mapM f = .ok l2 → ∀ b ∈ l2, ∃ a, f a = .ok b := by
  intro l
  induction l with
  | nil =>
    intro l2 h b hb
    rw [List.mapM_nil] at h
    obtain rfl : ([] : List β) = l2 := by simpa [epure_eq] using h
    simp at hb
  | cons a t ih =>
    intro l2 h b hb
    rw [List.mapM_cons] at h
    rcases hfa : f a with e | b0 <;> rw [hfa] at h
    · simp [ebind_error] at h
    · rw [ebind_ok] at h
      rcases hmt : t.mapM f with e | bs <;> rw [hmt] at h
      · simp [ebind_error] at h
      · rw [ebind_ok, epure_eq] at h
        obtain rfl : b0 :: bs = l2 := by simpa using h
        rcases List.mem_cons.mp hb with hb2 | hb2
        · subst hb2; exact ⟨a, hfa⟩
        · exact ih hmt b hb2

theorem data_append (a b : String) : (a ++ b).data = a.data ++ b.data := by
  cases a; cases b; rfl

theorem collapseGo_nil_of {l : List Char} (h : ∀ c ∈ l, isSlugKeep c = false) :
    collapseGo l true = [] := by
  induction l with
  | nil => rfl
  | cons c cs ih =>
    have hc := h c (List.mem_cons_self c cs)
    simp only [collapseGo, hc, Bool.false_eq_true, if_false, if_true]
    exact ih (fun d hd => h d (List.mem_cons_of_mem _ hd))

theorem trimDashes_collapse_nil {l : List Char} (h : ∀ c ∈ l, isSlugKeep c = false) :
    trimDashes (collapseGo l false) = [] := by
  cases l with
  | nil => rfl
  | cons c cs =>
    have hc := h c (List.mem_cons_self c cs)
    have hcs : collapseGo cs true = [] :=
      collapseGo_nil_of (fun d hd => h d (List.mem_cons_of_mem _ hd))
    have hstep : collapseGo (c :: cs) false = '-' :: collapseGo cs true := by
      simp only [collapseGo, hc, Bool.false_eq_true, if_false]
    rw [hstep, hcs]
    rfl

/-- A string whose characters all lowercase outside `[a-z0-9]` slugs to the
empty string. -/
theorem slug_empty_of {s : String} (h : ∀ c ∈ s.data, isSlugKeep (Char.toLower c) = false) :
    slug s = "" := by
  unfold slug
  rw [trimDashes_collapse_nil]
  · rfl
  · intro c hc
    rcases List.mem_map.mp hc with ⟨d, hd, rfl⟩
    exact h d hd

theorem mem_collapseGo {l : List Char} {c : Char} (hc : c ∈ l) (hk : isSlugKeep c = true) :
    ∀ b, c ∈ collapseGo l b := by
  induction l with
  | nil => simp at hc
  | cons a t ih =>
    intro b
    rcases List.mem_cons.mp hc with rfl | hmem
    · simp [collapseGo, hk]
    · by_cases ha : isSlugKeep a = true
      · simp only [collapseGo, ha, if_true]
        exact List.mem_cons_of_mem _ (ih hmem false)
      · rw [Bool.not_eq_true] at ha
        cases b
        · simp only [collapseGo, ha, Bool.false_eq_true, if_false]
          exact List.mem_cons_of_mem _ (ih hmem true)
        · simp only [collapseGo, ha, Bool.false_eq_true, if_false, if_true]
          exact ih hmem true

theorem mem_dropWhile_of (p : Char → Bool) {c : Char} (hpc : p c = false) :
    ∀ {l : List Char}, c ∈ l → c ∈ l.dropWhile p := by
  intro l
  induction l with
  | nil => simp
  | cons a t ih =>
    intro hc
    rw [List.dropWhile_cons]
    by_cases ha : p a = true
    · rw [if_pos ha]
      rcases List.mem_cons.mp hc with rfl | hm
      · rw [ha] at hpc; cases hpc
      · exact ih hm
    · rw [if_neg ha]
      exact hc

theorem mem_trimDashes {c : Char} (hne : (c == '-') = false) {l : List Char} (hc : c ∈ l) :
    c ∈ trimDashes l := by
  unfold trimDashes
  exact List.mem_reverse.mpr (mem_dropWhile_of (fun x => x == '-') hne
    (List.mem_reverse.mpr (mem_dropWhile_of (fun x => x == '-') hne hc)))

/-- A string containing a character that lowercases into `[a-z0-9]` has a
nonempty slug. -/
theorem slug_ne_empty {s : String} {c : Char} (hc : c ∈ s.data)
    (hk : isSlugKeep (Char.toLower c) = true) : slug s ≠ "" := by
  unfold slug
  intro h
  have hl : (trimDashes (collapseGo (s.data.map Char.toLower) false)).take 60 = [] := by
    have hd := congrArg String.data h
    simpa using hd
  have hdash : (Char.toLower c == '-') = false := by
    rcases hEq : (Char.toLower c == '-') with _ | _
    · rfl
    · rw [beq_iff_eq] at hEq
      rw [hEq] at hk
      simp [isSlugKeep] at hk
  have h1 : Char.toLower c ∈ collapseGo (s.data.map Char.toLower) false :=
    mem_collapseGo (List.mem_map_of_mem _ hc) hk false
  have h2 := mem_trimDashes hdash h1
  rcases List.take_eq_nil_iff.mp hl with h60 | hnil
  · cases h60
  · exact List.ne_nil_of_mem h2 hnil

theorem chain6_truthy_or_null (a1 a2 a3 a4 a5 a6 : JVal) :
    truthy (jor a1 (jor a2 (jor a3 (jor a4 (jor a5 (jor a6 .null)))))) = true ∨
    jor a1 (jor a2 (jor a3 (jor a4 (jor a5 (jor a6 .null))))) = .null :=
  jor_truthy_or_null (jor_truthy_or_null (jor_truthy_or_null (jor_truthy_or_null
    (jor_truthy_or_null (jor_truthy_or_null (Or.inr rfl))))))

theorem chain5_truthy_or_last (b1 b2 b3 b4 b5 t : JVal) :
    truthy (jor b1 (jor b2 (jor b3 (jor b4 (jor b5 t))))) = true ∨
    jor b1 (jor b2 (jor b3 (jor b4 (jor b5 t)))) = t :=
  jor_truthy_or_last (jor_truthy_or_last (jor_truthy_or_last (jor_truthy_or_last
    (jor_truthy_or_last (Or.inr rfl)))))

theorem normItem_some_inv {x : JVal} {it : ItemR} (h : normalizeItem x = .ok (some it)) :
    ItemInv it := by
  cases x with
  | null => simp [normalizeItem, defObj, getF, ebind_error] at h
  | undef =>
    have he : normalizeItem .undef = .ok none := rfl
    rw [he] at h; simp at h
  | bool b =>
    have he : normalizeItem (.bool b) = .ok none := rfl
    rw [he] at h; simp at h
  | num n =>
    have he : normalizeItem (.num n) = .ok none := rfl
    rw [he] at h; simp at h
  | str s =>
    have he : normalizeItem (.str s) = .ok none := rfl
    rw [he] at h; simp at h
  | arr xs =>
    have he : normalizeItem (.arr xs) = .ok none := rfl
    rw [he] at h; simp at h
  | obj fs =>
    simp only [normalizeItem, defObj, getF, getD, ebind_ok, epure_eq] at h
    have hn0 := chain6_truthy_or_null (lookupField fs "name") (lookupField fs "hotelName")
      (lookupField fs "propertyName") (lookupField fs "title")
      (og (lookupField fs "property") "name") (og (lookupField fs "hotel") "name")
    generalize hname : jor (lookupField fs "name") _ = N at h hn0
    have hi0 := chain5_truthy_or_last (lookupField fs "id") (lookupField fs "hotelId")
      (lookupField fs "propertyId") (lookupField fs "offerId") (lookupField fs "reference")
      (if truthy N = true then
        JVal.str (slug (jToString N ++ "-"
          ++ jToString (jor (lookupField fs "checkIn") (jor (lookupField fs "check_in") (JVal.str "")))
          ++ "-"
          ++ jToString (jor (lookupField fs "checkOut") (jor (lookupField fs "check_out") (JVal.str "")))))
       else JVal.null)
    generalize hid : jor (lookupField fs "id") _ = I at h hi0
    generalize hsrc : (if hasHotelSearchFields (JVal.obj fs) = true
      then JVal.str "hotel_search" else JVal.str "plan") = SRC at h
    split at h
    · simp at h
    · rename_i hcond
      simp only [Except.ok.injEq, Option.some.injEq] at h
      subst h
      show (truthy N = true ∨ N = JVal.null) ∧
        (truthy I = true ∨ (truthy N = true ∧ I = JVal.str "" ∧ slugSrcEmpty N))
      refine ⟨hn0, ?_⟩
      rcases hi0 with hi | hi
      · exact Or.inl hi
      · by_cases hN : truthy N = true
        · rw [if_pos hN] at hi
          by_cases hsl : slug (jToString N ++ "-"
              ++ jToString (jor (lookupField fs "checkIn") (jor (lookupField fs "check_in") (JVal.str "")))
              ++ "-"
              ++ jToString (jor (lookupField fs "checkOut") (jor (lookupField fs "check_out") (JVal.str "")))) = ""
          · refine Or.inr ⟨hN, by rw [hi, hsl], ?_⟩
            intro c hc
            cases hk : isSlugKeep (Char.toLower c) with
            | false => rfl
            | true =>
              have hmem : c ∈ (jToString N ++ "-"
                  ++ jToString (jor (lookupField fs "checkIn") (jor (lookupField fs "check_in") (JVal.str "")))
                  ++ "-"
                  ++ jToString (jor (lookupField fs "checkOut") (jor (lookupField fs "check_out") (JVal.str "")))).data := by
                simp only [data_append]
                exact List.mem_append_left _ (List.mem_append_left _
                  (List.mem_append_left _ (List.mem_append_left _ hc)))
              exact absurd hsl (slug_ne_empty hmem hk)
          · refine Or.inl ?_
            rw [hi, truthy_str]
            cases hie : String.isEmpty (slug (jToString N ++ "-"
                ++ jToString (jor (lookupField fs "checkIn") (jor (lookupField fs "check_in") (JVal.str "")))
                ++ "-"
                ++ jToString (jor (lookupField fs "checkOut") (jor (lookupField fs "check_out") (JVal.str ""))))) with
            | false => rfl
            | true => exact absurd ((String.isEmpty_iff _).mp hie) hsl
        · have hNf : truthy N = false := by simpa using hN
          rw [if_neg hN] at hi
          exact absurd (show (!truthy N && !truthy I) = true by rw [hNf, hi]; rfl) hcond


theorem nsr_tail_items {input : JVal} {src : List JVal} {r : NormResp}
    (h : (src.mapM coerceItem >>= fun coerced =>
          coerced.mapM normalizeItem >>= fun normed =>
          pure { items := normed.filterMap id, meta := extractMeta input,
                 hotels := normed.filterMap id,
                 narrative := nullish (og (extractMeta input) "narrative") (.str "") }) = .ok r) :
    r.hotels = r.items ∧ ∀ it ∈ r.items, ∃ x, normalizeItem x = .ok (some it) := by
  rcases hco : src.mapM coerceItem with e | coerced
  · rw [hco, ebind_error] at h
    cases h
  · rw [hco, ebind_ok] at h
    rcases hno : coerced.mapM normalizeItem with e | normed
    · rw [hno, ebind_error] at h
      cases h
    · rw [hno, ebind_ok, epure_eq] at h
      have hr : r = { items := normed.filterMap id, meta := extractMeta input,
                      hotels := normed.filterMap id,
                      narrative := nullish (og (extractMeta input) "narrative") (.str "") } :=
        (Except.ok.inj h).symm
      rw [hr]
      refine ⟨rfl, ?_⟩
      intro it hit
      rcases List.mem_filterMap.mp hit with ⟨o, ho, hid2⟩
      rcases mapM_ok_mem hno o ho with ⟨x, hx⟩
      exact ⟨x, by rw [hx]; exact congrArg Except.ok hid2⟩

theorem nsr_ok_items {input : JVal} {r : NormResp} (h : normalizeSearchResponse input = .ok r) :
    r.hotels = r.items ∧ ∀ it ∈ r.items, ∃ x, normalizeItem x = .ok (some it) := by
  unfold normalizeSearchResponse at h
  by_cases ht : truthy input = true
  · rw [if_neg (by simp [ht])] at h
    simp only [getF_of_truthy ht, ebind_ok] at h
    by_cases hst : truthy (getD input "steps") = true
    · rw [if_pos hst] at h
      rcases hfl : flattenSteps (getD input "steps") with e | c7
      · rw [hfl, ebind_error] at h
        cases h
      · rw [hfl, ebind_ok] at h
        exact nsr_tail_items h
    · rw [if_neg hst] at h
      rw [show (pure (getD input "steps") : Except String JVal) = .ok (getD input "steps") from rfl,
        ebind_ok] at h
      exact nsr_tail_items h
  · have htf : truthy input = false := by simpa using ht
    rw [if_pos (by rw [htf]; rfl)] at h
    have hr : r = Lux.empty := (Except.ok.inj h).symm
    rw [hr]
    exact ⟨rfl, by intro it hit; simp [Lux.empty] at hit⟩


theorem nsr_falsy (v : JVal) (h : truthy v = false) : normalizeSearchResponse v = .ok Lux.empty := by
  unfold normalizeSearchResponse
  rw [if_pos (by rw [h]; rfl)]

theorem nsr_truthy_prim (v : JVal) (hp : isPrimitive v = true) (ht : truthy v = true) :
    normalizeSearchResponse v =
      .ok { items := [], meta := .obj [("narrative", .str ""), ("agent", .null)],
            hotels := [], narrative := .str "" } := by
  cases v with
  | bool b => unfold normalizeSearchResponse; rw [ht]; rfl
  | num n => unfold normalizeSearchResponse; rw [ht]; rfl
  | str s => unfold normalizeSearchResponse; rw [ht]; rfl
  | null => simp [isPrimitive] at hp
  | undef => simp [isPrimitive] at hp
  | arr xs => simp [isPrimitive] at hp
  | obj fs => simp [isPrimitive] at hp


/-- C1: the spec promises the normalization core never lets an exception
reach the caller for any JSON-compatible input, including located candidate
arrays containing null elements; but `coerceItem(null)` evaluates
`null.data` (the `x = {}` default only replaces `undefined`), so
`normalizeSearchResponse({items:[null]})` throws a TypeError. -/
theorem c1_throws_on_null_array_element :
    normalizeSearchResponse (.obj [("items", .arr [.null])]) =
      .error "TypeError: cannot read properties of null" := rfl

/-- C2 (amended): only falsy top-level inputs (null, undefined, false, NaN,
0, "") are mapped to the canonical empty response; a truthy non-object
primitive is not (its `meta` is `{narrative:"",agent:null}`, see the
counterexample). -/
theorem c2_falsy_empty_response (v : JVal) (h : truthy v = false) :
    normalizeSearchResponse v = .ok Lux.empty :=
  nsr_falsy v h

theorem c2_witness :
    truthy JVal.null = false ∧ normalizeSearchResponse JVal.null = .ok Lux.empty :=
  ⟨rfl, c2_falsy_empty_response JVal.null rfl⟩

/-- C2 counterexample: the truthy non-object primitive `42` yields
`meta = {narrative:"", agent:null}`, not the canonical empty response with
`meta = {}` the claim demands. -/
theorem c2_counterexample :
    normalizeSearchResponse (.num (.fin 42)) =
      .ok { items := [], meta := .obj [("narrative", .str ""), ("agent", .null)],
            hotels := [], narrative := .str "" } ∧
    normalizeSearchResponse (.num (.fin 42)) ≠ .ok Lux.empty := by
  have h1 : normalizeSearchResponse (.num (.fin 42)) =
      .ok { items := [], meta := .obj [("narrative", .str ""), ("agent", .null)],
            hotels := [], narrative := .str "" } := by
    with_unfolding_all rfl
  refine ⟨h1, ?_⟩
  rw [h1]
  intro h
  have h3 := congrArg NormResp.meta (Except.ok.inj h)
  simp [Lux.empty] at h3

/-- C3: every item in the returned `items` array (and its alias `hotels`)
has a truthy (resolvable) name or id; `normalizeItem` maps an entity with
neither to null, and such entities never appear in the output. -/
theorem c3_items_have_name_or_id :
    (∀ (x : JVal) (it : ItemR), normalizeItem x = .ok (some it) →
      truthy it.name = true ∨ truthy it.id = true) ∧
    (∀ (input : JVal) (r : NormResp), normalizeSearchResponse input = .ok r →
      (∀ it ∈ r.items, truthy it.name = true ∨ truthy it.id = true) ∧
      (∀ it ∈ r.hotels, truthy it.name = true ∨ truthy it.id = true)) := by
  have base : ∀ (x : JVal) (it : ItemR), normalizeItem x = .ok (some it) →
      truthy it.name = true ∨ truthy it.id = true := by
    intro x it h
    rcases (normItem_some_inv h).2 with hid | ⟨hn, _, _⟩
    · exact Or.inr hid
    · exact Or.inl hn
  refine ⟨base, ?_⟩
  intro input r h
  obtain ⟨hho, hall⟩ := nsr_ok_items h
  have hitems : ∀ it ∈ r.items, truthy it.name = true ∨ truthy it.id = true := by
    intro it hit
    rcases hall it hit with ⟨x, hx⟩
    exact base x it hx
  exact ⟨hitems, by rw [hho]; exact hitems⟩

theorem c3_witness :
    truthy (JVal.str "A") = true ∨ truthy (JVal.str "a") = true :=
  c3_items_have_name_or_id.1 (.obj [("name", .str "A")])
    ⟨.str "a", .str "A", .null, .null, .null, .null, .null, .null, .null, .null,
     .null, .str "plan", .obj [("name", .str "A")]⟩ rfl

/-- C10: every falsy top-level input (null, undefined, 0, "", false, NaN)
yields the canonical empty response, while a truthy non-object primitive
yields empty items/hotels and narrative "" but `meta = {narrative:"",
agent:null}`, which differs from `{}`. -/
theorem c10_falsy_vs_truthy_primitive (v : JVal) :
    (truthy v = false → normalizeSearchResponse v = .ok Lux.empty) ∧
    (truthy v = true → isPrimitive v = true →
      normalizeSearchResponse v =
        .ok { items := [], meta := .obj [("narrative", .str ""), ("agent", .null)],
              hotels := [], narrative := .str "" }) ∧
    (JVal.obj [("narrative", .str ""), ("agent", .null)] ≠ .obj []) :=
  ⟨fun h => nsr_falsy v h, fun ht hp => nsr_truthy_prim v hp ht, by simp⟩

theorem c10_witness :
    normalizeSearchResponse (.num .nan) = .ok Lux.empty ∧
    normalizeSearchResponse (.str "x") =
      .ok { items := [], meta := .obj [("narrative", .str ""), ("agent", .null)],
            hotels := [], narrative := .str "" } :=
  ⟨(c10_falsy_vs_truthy_primitive (.num .nan)).1 rfl,
   (c10_falsy_vs_truthy_primitive (.str "x")).2.1 rfl rfl⟩


theorem nsr_items_obj (l : List JVal) (hl : l ≠ []) :
    normalizeSearchResponse (.obj [("items", .arr l)]) =
      (l.mapM coerceItem >>= fun coerced =>
       coerced.mapM normalizeItem >>= fun normed =>
       pure { items := normed.filterMap id,
              meta := .obj [("narrative", .str ""), ("agent", .null)],
              hotels := normed.filterMap id, narrative := .str "" }) := by
  have hlen : l.length ≠ 0 := fun h0 => hl (List.length_eq_zero.mp h0)
  show (if l.length ≠ 0 then l else []).mapM coerceItem >>= _ = _
  rw [if_pos hlen]
  rfl

/-- C4 (amended): the normalizer performs no deduplication at all: every
candidate that coerces and normalizes to a non-null item appears in `items`,
in encounter order, even when two raw entities share a case-insensitive id. -/
theorem c4_no_dedup (x y cx cy : JVal) (itx ity : ItemR)
    (hxc : coerceItem x = .ok cx) (hxn : normalizeItem cx = .ok (some itx))
    (hyc : coerceItem y = .ok cy) (hyn : normalizeItem cy = .ok (some ity)) :
    normalizeSearchResponse (.obj [("items", .arr [x, y])]) =
      .ok { items := [itx, ity], meta := .obj [("narrative", .str ""), ("agent", .null)],
            hotels := [itx, ity], narrative := .str "" } := by
  rw [nsr_items_obj [x, y] (by simp)]
  simp only [List.mapM_cons, List.mapM_nil, hxc, hyc, hxn, hyn, ebind_ok, epure_eq]
  rfl

theorem c4_witness :
    normalizeSearchResponse (.obj [("items", .arr
      [.obj [("id", .str "A"), ("name", .str "first")],
       .obj [("id", .str "a"), ("name", .str "second")]])]) =
      .ok { items :=
              [⟨.str "A", .str "first", .null, .null, .null, .null, .null, .null, .null, .null,
                .null, .str "plan", .obj [("id", .str "A"), ("name", .str "first")]⟩,
               ⟨.str "a", .str "second", .null, .null, .null, .null, .null, .null, .null, .null,
                .null, .str "plan", .obj [("id", .str "a"), ("name", .str "second")]⟩],
            meta := .obj [("narrative", .str ""), ("agent", .null)],
            hotels :=
              [⟨.str "A", .str "first", .null, .null, .null, .null, .null, .null, .null, .null,
                .null, .str "plan", .obj [("id", .str "A"), ("name", .str "first")]⟩,
               ⟨.str "a", .str "second", .null, .null, .null, .null, .null, .null, .null, .null,
                .null, .str "plan", .obj [("id", .str "a"), ("name", .str "second")]⟩],
            narrative := .str "" } :=
  c4_no_dedup (.obj [("id", .str "A"), ("name", .str "first")])
    (.obj [("id", .str "a"), ("name", .str "second")])
    (.obj [("id", .str "A"), ("name", .str "first")])
    (.obj [("id", .str "a"), ("name", .str "second")])
    ⟨.str "A", .str "first", .null, .null, .null, .null, .null, .null, .null, .null,
     .null, .str "plan", .obj [("id", .str "A"), ("name", .str "first")]⟩
    ⟨.str "a", .str "second", .null, .null, .null, .null, .null, .null, .null, .null,
     .null, .str "plan", .obj [("id", .str "a"), ("name", .str "second")]⟩
    rfl rfl rfl rfl

/-- C4 counterexample: two raw entities with ids "A" and "a" (equal up to
case) both appear in `items`; the claim demands only the first one. -/
theorem c4_counterexample :
    (normalizeSearchResponse (.obj [("items", .arr
      [.obj [("id", .str "A"), ("name", .str "first")],
       .obj [("id", .str "a"), ("name", .str "second")]])])).map
        (fun r => (r.items.length, r.items.map (fun it => it.name))) =
      .ok (2, [.str "first", .str "second"]) ∧ (2 : Nat) ≠ 1 :=
  ⟨rfl, by decide⟩

theorem matchAndParse_total (s : String) :
    matchAndParse s = .null ∨ ∃ q : ℚ, matchAndParse s = .num (.fin q) := by
  unfold matchAndParse
  split
  · exact Or.inl rfl
  · exact Or.inr ⟨_, rfl⟩

/-- C5 (amended): `normalizeItem` never reads the est-price fields; its
price order is nested price.total → price.amount → flat price → total →
amount → rate.amount → nightlyPrice → pricing.total, so when a raw entity
carries a finite generic `price` together with per-night fields
(`est_price_gbp`, `nightlyPrice`), the generic price wins. -/
theorem c5_flat_price_wins (fs : List (String × JVal)) (q p1 p2 : ℚ) (it : ItemR)
    (hp : lookupField fs "price" = .num (.fin q))
    (_hg : lookupField fs "est_price_gbp" = .num (.fin p1))
    (_hn : lookupField fs "nightlyPrice" = .num (.fin p2))
    (h : normalizeItem (.obj fs) = .ok (some it)) :
    it.price = .num (.fin q) := by
  simp only [normalizeItem, defObj, getF, getD, ebind_ok, epure_eq] at h
  rw [hp] at h
  simp only [og, getD, num, toNumber, nullish] at h
  generalize hname : jor (lookupField fs "name") _ = nameV at h
  generalize hid : jor (lookupField fs "id") _ = idV at h
  split at h
  · simp at h
  · simp only [Except.ok.injEq, Option.some.injEq] at h
    subst h
    rfl

theorem c5_witness :
    (⟨.str "a", .str "A", .num (.fin 100), .null, .null, .null, .null, .null, .null, .null,
      .null, .str "plan",
      .obj [("name", .str "A"), ("price", .num (.fin 100)),
            ("est_price_gbp", .num (.fin 50)), ("nightlyPrice", .num (.fin 70))]⟩ : ItemR).price =
      .num (.fin 100) :=
  c5_flat_price_wins
    [("name", .str "A"), ("price", .num (.fin 100)),
     ("est_price_gbp", .num (.fin 50)), ("nightlyPrice", .num (.fin 70))] 100 50 70
    ⟨.str "a", .str "A", .num (.fin 100), .null, .null, .null, .null, .null, .null, .null,
     .null, .str "plan",
     .obj [("name", .str "A"), ("price", .num (.fin 100)),
           ("est_price_gbp", .num (.fin 50)), ("nightlyPrice", .num (.fin 70))]⟩
    (by with_unfolding_all rfl) (by with_unfolding_all rfl) (by with_unfolding_all rfl)
    (by with_unfolding_all rfl)

/-- C5 counterexample: with both a generic price (100) and per-night fields
(est_price_gbp 50, nightlyPrice 70) present, the normalized price is 100 —
not the per-night value the claim demands. -/
theorem c5_counterexample :
    (normalizeItem (.obj [("name", .str "A"), ("price", .num (.fin 100)),
        ("est_price_gbp", .num (.fin 50)), ("nightlyPrice", .num (.fin 70))])).map
      (Option.map (fun it => it.price)) = .ok (some (.num (.fin 100))) ∧
    JVal.num (.fin 100) ≠ .num (.fin 50) ∧ JVal.num (.fin 100) ≠ .num (.fin 70) := by
  refine ⟨by with_unfolding_all rfl, ?_, ?_⟩
  · intro h
    simp only [JVal.num.injEq, JNum.fin.injEq] at h
    norm_num at h
  · intro h
    simp only [JVal.num.injEq, JNum.fin.injEq] at h
    norm_num at h

/-- C6 (amended): the numeric extractor used by item normalization (`num`)
performs no quote-stripping or token scanning — it is plain `Number()`
coercion kept only when finite, so "€200" degrades to null; the
quote-stripping, first-token-scanning, comma-tolerant extractor is
`parsePrice` in the hotel card, for which "€200" yields 200. Neither ever
raises: both always return null or a finite number. -/
theorem c6_numeric_extractors :
    (∀ v : JVal, num v = .null ∨ ∃ q : ℚ, num v = .num (.fin q)) ∧
    num (.str "€200") = .null ∧
    parsePrice (.str "€200") = .num (.fin 200) ∧
    parsePrice (.str "  '€7,5 per night'  ") = .num (.fin (7.5 : ℚ)) ∧
    parsePrice (.str "no digits") = .null ∧
    (∀ v : JVal, parsePrice v = .null ∨ ∃ q : ℚ, parsePrice v = .num (.fin q)) := by
  refine ⟨?_, by with_unfolding_all rfl, by with_unfolding_all rfl,
    by with_unfolding_all rfl, by with_unfolding_all rfl, ?_⟩
  · intro v
    unfold num
    split
    · exact Or.inl rfl
    · exact Or.inl rfl
    · split
      · exact Or.inr ⟨_, rfl⟩
      · exact Or.inl rfl
  · intro v
    unfold parsePrice
    split
    · exact Or.inl rfl
    · exact Or.inl rfl
    · exact matchAndParse_total _

/-- C6 counterexample: the extractor used by item normalization (`num`)
yields null on "€200", not 200, also observed through `normalizeItem` on an
entity whose price field is "€200". -/
theorem c6_counterexample :
    num (.str "€200") = .null ∧ JVal.null ≠ .num (.fin 200) ∧
    (normalizeItem (.obj [("name", .str "A"), ("price", .str "€200")])).map
      (Option.map (fun it => it.price)) = .ok (some .null) := by
  refine ⟨by with_unfolding_all rfl, by simp, by with_unfolding_all rfl⟩

/-- C7 (amended): when none of the currency sources resolves (no
price.currency, no item currency, no rate.currency, no pricing.currency),
the normalized item's currency is null — `currency` is string-or-null, the
"GBP" default is not applied by the normalizer. -/
theorem c7_currency_null_when_unresolvable (fs : List (String × JVal)) (it : ItemR)
    (h1 : truthy (og (lookupField fs "price") "currency") = false)
    (h2 : truthy (lookupField fs "currency") = false)
    (h3 : truthy (og (lookupField fs "rate") "currency") = false)
    (h4 : truthy (og (lookupField fs "pricing") "currency") = false)
    (h : normalizeItem (.obj fs) = .ok (some it)) :
    it.currency = .null := by
  simp only [normalizeItem, defObj, getF, getD, ebind_ok, epure_eq] at h
  rw [jor_neg _ h1, jor_neg _ h2, jor_neg _ h3, jor_neg _ h4] at h
  generalize hname : jor (lookupField fs "name") _ = nameV at h
  generalize hid : jor (lookupField fs "id") _ = idV at h
  split at h
  · simp at h
  · simp only [Except.ok.injEq, Option.some.injEq] at h
    subst h
    rfl

theorem c7_witness :
    (⟨.str "alpha", .str "Alpha", .null, .null, .null, .null, .null, .null, .null, .null,
      .null, .str "plan", .obj [("name", .str "Alpha")]⟩ : ItemR).currency = .null :=
  c7_currency_null_when_unresolvable [("name", .str "Alpha")]
    ⟨.str "alpha", .str "Alpha", .null, .null, .null, .null, .null, .null, .null, .null,
     .null, .str "plan", .obj [("name", .str "Alpha")]⟩
    rfl rfl rfl rfl rfl

/-- C7 counterexample: an entity with no currency information normalizes to
`currency = null`, not the fixed default "GBP" the claim asserts. -/
theorem c7_counterexample :
    (normalizeItem (.obj [("name", .str "Alpha")])).map (Option.map (fun it => it.currency)) =
      .ok (some .null) ∧ JVal.null ≠ .str "GBP" :=
  ⟨rfl, by simp⟩

/-- C8 (amended): `normalizeSearchResponse` does not unwrap JSON-RPC result
envelopes: applied to `{result:{content:[{json:P}]}}` it returns the
empty-items response for every payload P (envelope unwrapping happens in
the transport layer, before the normalizer is called). -/
theorem c8_envelope_not_unwrapped (p : JVal) :
    normalizeSearchResponse (.obj [("result", .obj [("content", .arr [.obj [("json", p)]])])]) =
      .ok { items := [], meta := .obj [("narrative", .str ""), ("agent", .null)],
            hotels := [], narrative := .str "" } := rfl

/-- C8 counterexample: wrapping `{items:[{name:"Alpha"}]}` in a JSON-RPC
result envelope yields zero items while the bare payload yields one, so the
two normalizations differ. -/
theorem c8_counterexample :
    (normalizeSearchResponse (.obj [("result", .obj [("content",
        .arr [.obj [("json", .obj [("items", .arr [.obj [("name", .str "Alpha")]])])]])])])).map
      (fun r => r.items.length) = .ok 0 ∧
    (normalizeSearchResponse (.obj [("items", .arr [.obj [("name", .str "Alpha")]])])).map
      (fun r => r.items.length) = .ok 1 ∧
    normalizeSearchResponse (.obj [("result", .obj [("content",
        .arr [.obj [("json", .obj [("items", .arr [.obj [("name", .str "Alpha")]])])]])])]) ≠
      normalizeSearchResponse (.obj [("items", .arr [.obj [("name", .str "Alpha")]])]) := by
  refine ⟨rfl, rfl, ?_⟩
  intro h
  have h1 : (Except.ok 0 : Except String Nat) = Except.ok 1 :=
    congrArg (fun z : Except String NormResp =>
      Except.map (fun r : NormResp => r.items.length) z) h
  simp at h1


theorem defObj_toJVal (it : ItemR) : defObj (ItemR.toJVal it) = ItemR.toJVal it := rfl

theorem getF_toJVal (it : ItemR) (k : String) :
    getF (ItemR.toJVal it) k = .ok (getD (ItemR.toJVal it) k) := rfl

theorem getD_tj_name (it : ItemR) : getD (ItemR.toJVal it) "name" = it.name := rfl

theorem getD_tj_id (it : ItemR) : getD (ItemR.toJVal it) "id" = it.id := rfl

theorem getD_tj_price (it : ItemR) : getD (ItemR.toJVal it) "price" = it.price := rfl

theorem getD_tj_currency (it : ItemR) : getD (ItemR.toJVal it) "currency" = it.currency := rfl

theorem getD_tj_address (it : ItemR) : getD (ItemR.toJVal it) "address" = it.address := rfl

theorem getD_tj_city (it : ItemR) : getD (ItemR.toJVal it) "city" = it.city := rfl

theorem getD_tj_stars (it : ItemR) : getD (ItemR.toJVal it) "stars" = it.stars := rfl

theorem getD_tj_rating (it : ItemR) : getD (ItemR.toJVal it) "rating" = it.rating := rfl

theorem getD_tj_thumbnail (it : ItemR) : getD (ItemR.toJVal it) "thumbnail" = it.thumbnail := rfl

theorem getD_tj_source (it : ItemR) : getD (ItemR.toJVal it) "source" = it.source := rfl

theorem getD_tj_hotelName (it : ItemR) : getD (ItemR.toJVal it) "hotelName" = .undef := rfl

theorem getD_tj_propertyName (it : ItemR) : getD (ItemR.toJVal it) "propertyName" = .undef := rfl

theorem getD_tj_title (it : ItemR) : getD (ItemR.toJVal it) "title" = .undef := rfl

theorem getD_tj_property (it : ItemR) : getD (ItemR.toJVal it) "property" = .undef := rfl

theorem getD_tj_hotel (it : ItemR) : getD (ItemR.toJVal it) "hotel" = .undef := rfl

theorem getD_tj_hotelId (it : ItemR) : getD (ItemR.toJVal it) "hotelId" = .undef := rfl

theorem getD_tj_propertyId (it : ItemR) : getD (ItemR.toJVal it) "propertyId" = .undef := rfl

theorem getD_tj_offerId (it : ItemR) : getD (ItemR.toJVal it) "offerId" = .undef := rfl

theorem getD_tj_reference (it : ItemR) : getD (ItemR.toJVal it) "reference" = .undef := rfl

theorem getD_tj_checkIn (it : ItemR) : getD (ItemR.toJVal it) "checkIn" = .undef := rfl

theorem getD_tj_checkUin (it : ItemR) : getD (ItemR.toJVal it) "check_in" = .undef := rfl

theorem getD_tj_checkOut (it : ItemR) : getD (ItemR.toJVal it) "checkOut" = .undef := rfl

theorem getD_tj_checkUout (it : ItemR) : getD (ItemR.toJVal it) "check_out" = .undef := rfl

theorem getD_tj_total (it : ItemR) : getD (ItemR.toJVal it) "total" = .undef := rfl

theorem getD_tj_amount (it : ItemR) : getD (ItemR.toJVal it) "amount" = .undef := rfl

theorem getD_tj_rate (it : ItemR) : getD (ItemR.toJVal it) "rate" = .undef := rfl

theorem getD_tj_nightlyPrice (it : ItemR) : getD (ItemR.toJVal it) "nightlyPrice" = .undef := rfl

theorem getD_tj_pricing (it : ItemR) : getD (ItemR.toJVal it) "pricing" = .undef := rfl

theorem getD_tj_location (it : ItemR) : getD (ItemR.toJVal it) "location" = .undef := rfl

theorem getD_tj_coordinates (it : ItemR) : getD (ItemR.toJVal it) "coordinates" = .undef := rfl

theorem getD_tj_class (it : ItemR) : getD (ItemR.toJVal it) "class" = .undef := rfl

theorem getD_tj_starRating (it : ItemR) : getD (ItemR.toJVal it) "starRating" = .undef := rfl

theorem getD_tj_reviewScore (it : ItemR) : getD (ItemR.toJVal it) "reviewScore" = .undef := rfl

theorem getD_tj_score (it : ItemR) : getD (ItemR.toJVal it) "score" = .undef := rfl

theorem getD_tj_guestRating (it : ItemR) : getD (ItemR.toJVal it) "guestRating" = .undef := rfl

theorem getD_tj_image (it : ItemR) : getD (ItemR.toJVal it) "image" = .undef := rfl

theorem getD_tj_images (it : ItemR) : getD (ItemR.toJVal it) "images" = .undef := rfl

theorem getD_tj_photos (it : ItemR) : getD (ItemR.toJVal it) "photos" = .undef := rfl

theorem getD_tj_media (it : ItemR) : getD (ItemR.toJVal it) "media" = .undef := rfl

theorem getD_tj_Usource (it : ItemR) : getD (ItemR.toJVal it) "_source" = .undef := rfl

theorem getD_tj_checkUinUdate (it : ItemR) : getD (ItemR.toJVal it) "check_in_date" = .undef := rfl

theorem getD_tj_dateRange (it : ItemR) : getD (ItemR.toJVal it) "dateRange" = .undef := rfl

theorem getD_tj_room (it : ItemR) : getD (ItemR.toJVal it) "room" = .undef := rfl

theorem og_undef (k : String) : og .undef k = .undef := rfl

theorem og_null (k : String) : og .null k = .undef := rfl

theorem jToString_empty : jToString (.str "") = "" := rfl

theorem hasHSF_toJVal (it : ItemR) : hasHotelSearchFields (ItemR.toJVal it) = false := rfl

theorem coerce_toJVal (it : ItemR) : coerceItem (ItemR.toJVal it) = .ok (ItemR.toJVal it) := rfl

theorem roundtrip_one (it : ItemR) (hInv : ItemInv it) :
    ∃ it2 : ItemR, normalizeItem (ItemR.toJVal it) = .ok (some it2) ∧
      it2.id = it.id ∧ it2.name = it.name := by
  obtain ⟨hn, hi⟩ := hInv
  simp only [normalizeItem, defObj_toJVal, getF_toJVal, ebind_ok, epure_eq,
    getD_tj_name, getD_tj_id, getD_tj_price, getD_tj_currency, getD_tj_address,
    getD_tj_city, getD_tj_stars, getD_tj_rating, getD_tj_thumbnail, getD_tj_source,
    getD_tj_hotelName, getD_tj_propertyName, getD_tj_title, getD_tj_property,
    getD_tj_hotel, getD_tj_hotelId, getD_tj_propertyId, getD_tj_offerId,
    getD_tj_reference, getD_tj_checkIn, getD_tj_checkUin, getD_tj_checkOut,
    getD_tj_checkUout, getD_tj_total, getD_tj_amount, getD_tj_rate,
    getD_tj_nightlyPrice, getD_tj_pricing, getD_tj_location, getD_tj_coordinates,
    getD_tj_class, getD_tj_starRating, getD_tj_reviewScore, getD_tj_score,
    getD_tj_guestRating, getD_tj_image, getD_tj_images, getD_tj_photos, getD_tj_media,
    getD_tj_Usource, getD_tj_checkUinUdate, getD_tj_dateRange, getD_tj_room,
    og_undef, og_null, jor_undef, jor_null, jToString_empty, hasHSF_toJVal]
  rcases hn with htn | hnull
  · rw [jor_pos JVal.null htn]
    rcases hi with hti | ⟨htn2, hid_eq, hsrcE⟩
    · rw [jor_pos _ hti, if_neg (by rw [htn, hti]; simp)]
      exact ⟨_, rfl, rfl, rfl⟩
    · have hslug : slug (jToString it.name ++ "-" ++ "" ++ "-" ++ "") = "" := by
        apply slug_empty_of
        intro c hc
        simp only [data_append, show ("-" : String).data = ['-'] from rfl,
          show ("" : String).data = [] from rfl, List.append_nil, List.mem_append,
          List.mem_singleton] at hc
        rcases hc with ((h | rfl) | rfl)
        · exact hsrcE c h
        · decide
        · decide
      rw [if_pos htn, hslug, hid_eq,
        jor_neg (JVal.str "") (show truthy (JVal.str "") = false from rfl),
        if_neg (by rw [htn]; decide)]
      exact ⟨_, rfl, rfl, rfl⟩
  · rcases hi with hti | ⟨htn2, hid_eq, hsrcE⟩
    · rw [hnull, jor_null, if_neg (show ¬(truthy JVal.null = true) by decide),
        jor_pos _ hti, if_neg (by rw [hti]; decide)]
      exact ⟨_, rfl, rfl, rfl⟩
    · exfalso
      rw [hnull] at htn2
      exact absurd htn2 (by decide)


theorem mapM_coerce_toJVal (its : List ItemR) :
    (its.map ItemR.toJVal).mapM coerceItem = .ok (its.map ItemR.toJVal) := by
  induction its with
  | nil => rfl
  | cons a t ih =>
    rw [List.map_cons, List.mapM_cons, coerce_toJVal, ebind_ok, ih, ebind_ok, epure_eq]

theorem roundtrip_list (its : List ItemR) (hinv : ∀ it ∈ its, ItemInv it) :
    ∃ its2 : List ItemR,
      (its.map ItemR.toJVal).mapM normalizeItem = .ok (its2.map some) ∧
      its2.map (fun it => (it.id, it.name)) = its.map (fun it => (it.id, it.name)) := by
  induction its with
  | nil => exact ⟨[], rfl, rfl⟩
  | cons a t ih =>
    obtain ⟨a2, ha, haid, haname⟩ := roundtrip_one a (hinv a (List.mem_cons_self a t))
    obtain ⟨t2, ht, htp⟩ := ih (fun it hit => hinv it (List.mem_cons_of_mem a hit))
    refine ⟨a2 :: t2, ?_, ?_⟩
    · rw [List.map_cons, List.mapM_cons, ha, ebind_ok, ht, ebind_ok, epure_eq]
      rfl
    · simp only [List.map_cons, htp, haid, haname]

theorem nsr_items_inv {input : JVal} {r : NormResp} (h : normalizeSearchResponse input = .ok r) :
    ∀ it ∈ r.items, ItemInv it := by
  intro it hit
  rcases (nsr_ok_items h).2 it hit with ⟨x, hx⟩
  exact normItem_some_inv hx

/-- C9: re-normalizing the canonical items (wrapped as `{items: items1}`)
preserves the (id, name) pairs exactly, elementwise and hence as a set. -/
theorem c9_idempotent_on_id_name (input : JVal) (r : NormResp)
    (h : normalizeSearchResponse input = .ok r) :
    ∃ r2 : NormResp,
      normalizeSearchResponse (.obj [("items", .arr (r.items.map ItemR.toJVal))]) = .ok r2 ∧
      r2.items.map (fun it => (it.id, it.name)) = r.items.map (fun it => (it.id, it.name)) ∧
      ∀ p : JVal × JVal, (p ∈ r2.items.map (fun it => (it.id, it.name)) ↔
        p ∈ r.items.map (fun it => (it.id, it.name))) := by
  have hinv := nsr_items_inv h
  by_cases hnil : r.items = []
  · refine ⟨{ items := [], meta := .obj [("narrative", .str ""), ("agent", .null)],
              hotels := [], narrative := .str "" }, ?_, ?_, ?_⟩
    · rw [hnil]
      rfl
    · rw [hnil]
    · rw [hnil]
      intro p
      exact Iff.rfl
  · have hmap_ne : r.items.map ItemR.toJVal ≠ [] := by simpa using hnil
    rw [nsr_items_obj _ hmap_ne, mapM_coerce_toJVal, ebind_ok]
    obtain ⟨its2, hmapM, hpairs⟩ := roundtrip_list r.items hinv
    rw [hmapM, ebind_ok, epure_eq]
    have hfm : (List.map some its2).filterMap id = its2 := by simp
    refine ⟨_, rfl, ?_, ?_⟩
    · show (List.filterMap id (List.map some its2)).map _ = _
      rw [hfm]
      exact hpairs
    · intro p
      show p ∈ (List.filterMap id (List.map some its2)).map _ ↔ _
      rw [hfm, hpairs]

theorem c9_witness : ∃ r2 : NormResp,
    normalizeSearchResponse (JVal.obj [("items", JVal.arr (List.map ItemR.toJVal [⟨.str "h1", .str "Alpha", .null, .null, .null, .null, .null, .null, .null, .null, .null, .str "plan", .obj [("id", .str "h1"), ("name", .str "Alpha")]⟩]))]) = .ok r2 ∧
    r2.items.map (fun it => (it.id, it.name)) = List.map (fun it : ItemR => (it.id, it.name)) [⟨.str "h1", .str "Alpha", .null, .null, .null, .null, .null, .null, .null, .null, .null, .str "plan", .obj [("id", .str "h1"), ("name", .str "Alpha")]⟩] ∧
    ∀ p : JVal × JVal, (p ∈ r2.items.map (fun it => (it.id, it.name)) ↔
      p ∈ List.map (fun it : ItemR => (it.id, it.name)) [⟨.str "h1", .str "Alpha", .null, .null, .null, .null, .null, .null, .null, .null, .null, .str "plan", .obj [("id", .str "h1"), ("name", .str "Alpha")]⟩]) :=
  c9_idempotent_on_id_name (JVal.obj [("items", JVal.arr [JVal.obj [("id", JVal.str "h1"), ("name", JVal.str "Alpha")]])]) { items := [⟨.str "h1", .str "Alpha", .null, .null, .null, .null, .null, .null, .null, .null, .null, .str "plan", .obj [("id", .str "h1"), ("name", .str "Alpha")]⟩], meta := JVal.obj [("narrative", JVal.str ""), ("agent", JVal.null)], hotels := [⟨.str "h1", .str "Alpha", .null, .null, .null, .null, .null, .null, .null, .null, .null, .str "plan", .obj [("id", .str "h1"), ("name", .str "Alpha")]⟩], narrative := JVal.str "" } rfl


end Lux
